import Mathlib

/-!
Verification of the sandboxed filesystem tool engine (fs_read / fs_write and
their lib modules).  JavaScript strings are modelled as `List Char`, JS numbers
used as indices as `Int` or `Nat`, machine words of the hash as `Nat` reduced
modulo `2 ^ 32`.  Each definition is a shallow embedding of the correspondingly
named function of the source tree.
-/

namespace FsAgent

/-- JS strings, modelled as lists of characters. -/
abbrev Str := List Char

/-! ## Checksum (lib/checksum.js, SHA-256 from node:crypto)

`generateChecksum` hashes the UTF-8 bytes of the content with SHA-256 and keeps
the first 12 hex characters of the digest.  The hash itself is the standard
FIPS 180-4 SHA-256, embedded here over `Nat` with explicit reduction mod 2^32.
-/

/-- UTF-8 encoding of a single character (code point to bytes). -/
def utf8EncodeCh (c : Char) : List Nat :=
  let n := c.toNat
  if n < 0x80 then [n]
  else if n < 0x800 then
    [0xC0 + n / 0x40, 0x80 + n % 0x40]
  else if n < 0x10000 then
    [0xE0 + n / 0x1000, 0x80 + n / 0x40 % 0x40, 0x80 + n % 0x40]
  else
    [0xF0 + n / 0x40000, 0x80 + n / 0x1000 % 0x40, 0x80 + n / 0x40 % 0x40,
     0x80 + n % 0x40]

/-- UTF-8 bytes of a string (the `'utf8'` encoding used by `createHash`). -/
def utf8Bytes (s : Str) : List Nat :=
  s.flatMap utf8EncodeCh

/-- 2^32, the modulus for 32-bit words. -/
def M32 : Nat := 4294967296

/-- 32-bit addition. -/
def add32 (a b : Nat) : Nat := (a + b) % M32

/-- 32-bit right rotation. -/
def rotr32 (x n : Nat) : Nat := ((x >>> n) + (x <<< (32 - n))) % M32

/-- 32-bit right shift. -/
def shr32 (x n : Nat) : Nat := x >>> n

/-- The SHA-256 round constants. -/
def shaK : List Nat :=
  [1116352408, 1899447441, 3049323471, 3921009573, 961987163,
   1508970993, 2453635748, 2870763221, 3624381080, 310598401,
   607225278, 1426881987, 1925078388, 2162078206, 2614888103,
   3248222580, 3835390401, 4022224774, 264347078, 604807628,
   770255983, 1249150122, 1555081692, 1996064986, 2554220882,
   2821834349, 2952996808, 3210313671, 3336571891, 3584528711,
   113926993, 338241895, 666307205, 773529912, 1294757372,
   1396182291, 1695183700, 1986661051, 2177026350, 2456956037,
   2730485921, 2820302411, 3259730800, 3345764771, 3516065817,
   3600352804, 4094571909, 275423344, 430227734, 506948616,
   659060556, 883997877, 958139571, 1322822218, 1537002063,
   1747873779, 1955562222, 2024104815, 2227730452, 2361852424,
   2428436474, 2756734187, 3204031479, 3329325298]

/-- The SHA-256 working state: eight 32-bit words. -/
structure ShaState where
  sa : Nat
  sb : Nat
  sc : Nat
  sd : Nat
  se : Nat
  sf : Nat
  sg : Nat
  sh : Nat
deriving Repr, DecidableEq

/-- Initial SHA-256 hash values. -/
def shaInit : ShaState :=
  ⟨1779033703, 3144134277, 1013904242, 2773480762,
   1359893119, 2600822924, 528734635, 1541459225⟩

/-- SHA-256 message padding: append 0x80, zeros to 56 mod 64, then the
64-bit big-endian bit length. -/
def shaPad (msg : List Nat) : List Nat :=
  let len := msg.length
  let bitLen := len * 8
  let zeros := (64 + 56 - (len + 1) % 64) % 64
  msg ++ [0x80] ++ List.replicate zeros 0 ++
    [bitLen / 2 ^ 56 % 256, bitLen / 2 ^ 48 % 256, bitLen / 2 ^ 40 % 256,
     bitLen / 2 ^ 32 % 256, bitLen / 2 ^ 24 % 256, bitLen / 2 ^ 16 % 256,
     bitLen / 2 ^ 8 % 256, bitLen % 256]

/-- Split a list into chunks of `n` elements (n > 0 on all uses); structural
recursion on a fuel bounded by the list length. -/
def chunksOfAux (n : Nat) : Nat → List α → List (List α)
  | _, [] => []
  | 0, _ :: _ => []
  | fuel + 1, x :: xs => (x :: xs.take (n - 1)) :: chunksOfAux n fuel (xs.drop (n - 1))

/-- Split a list into chunks of `n` elements (n > 0 on all uses). -/
def chunksOf (n : Nat) (l : List α) : List (List α) :=
  chunksOfAux n l.length l

/-- Big-endian 32-bit words from a list of bytes. -/
def bytesToWords : List Nat → List Nat
  | b0 :: b1 :: b2 :: b3 :: rest =>
    (b0 * 0x1000000 + b1 * 0x10000 + b2 * 0x100 + b3) :: bytesToWords rest
  | _ => []

/-- Extend the 16-word block to the 64-word message schedule. -/
def shaSchedule (w16 : List Nat) : List Nat :=
  (List.range 48).foldl
    (fun acc _ =>
      let i := acc.length
      let w15 := acc.getD (i - 15) 0
      let w2 := acc.getD (i - 2) 0
      let s0 := (Nat.xor (Nat.xor (rotr32 w15 7) (rotr32 w15 18)) (shr32 w15 3))
      let s1 := (Nat.xor (Nat.xor (rotr32 w2 17) (rotr32 w2 19)) (shr32 w2 10))
      acc ++ [(acc.getD (i - 16) 0 + s0 + acc.getD (i - 7) 0 + s1) % M32])
    w16

/-- One SHA-256 round. -/
def shaRound (st : ShaState) (kw : Nat × Nat) : ShaState :=
  let ⟨a, b, c, d, e, f, g, h⟩ := st
  let s1 := Nat.xor (Nat.xor (rotr32 e 6) (rotr32 e 11)) (rotr32 e 25)
  let ch := Nat.xor (Nat.land e f) (Nat.land (M32 - 1 - e) g)
  let temp1 := (h + s1 + ch + kw.1 + kw.2) % M32
  let s0 := Nat.xor (Nat.xor (rotr32 a 2) (rotr32 a 13)) (rotr32 a 22)
  let maj := Nat.xor (Nat.xor (Nat.land a b) (Nat.land a c)) (Nat.land b c)
  let temp2 := (s0 + maj) % M32
  ⟨add32 temp1 temp2, a, b, c, add32 d temp1, e, f, g⟩

/-- Process one 64-byte chunk. -/
def shaChunk (st : ShaState) (chunk : List Nat) : ShaState :=
  let ws := shaSchedule (bytesToWords chunk)
  let r := (shaK.zip ws).foldl shaRound st
  ⟨add32 st.sa r.sa, add32 st.sb r.sb, add32 st.sc r.sc, add32 st.sd r.sd,
   add32 st.se r.se, add32 st.sf r.sf, add32 st.sg r.sg, add32 st.sh r.sh⟩

/-- SHA-256 of a byte list, as the final state. -/
def sha256 (msg : List Nat) : ShaState :=
  (chunksOf 64 (shaPad msg)).foldl shaChunk shaInit

/-- Hex digit characters. -/
def hexTable : Str := "0123456789abcdef".data

/-- One hex digit. -/
def hx (n : Nat) : Char := hexTable.getD (n % 16) '0'

/-- Eight lowercase hex characters of a 32-bit word. -/
def wordHex (w : Nat) : Str :=
  [hx (w / 2 ^ 28), hx (w / 2 ^ 24), hx (w / 2 ^ 20), hx (w / 2 ^ 16),
   hx (w / 2 ^ 12), hx (w / 2 ^ 8), hx (w / 2 ^ 4), hx w]

/-- The 64-character hex digest of SHA-256. -/
def sha256hex (msg : List Nat) : Str :=
  let st := sha256 msg
  wordHex st.sa ++ wordHex st.sb ++ wordHex st.sc ++ wordHex st.sd ++
  wordHex st.se ++ wordHex st.sf ++ wordHex st.sg ++ wordHex st.sh

/-- Embeds `generateChecksum` (lib/checksum.js): first 12 characters of the SHA-256
hex digest of the UTF-8 bytes of `content`. -/
def generateChecksum (content : Str) : Str :=
  (sha256hex (utf8Bytes content)).take 12

/-- Embeds `verifyChecksum` (lib/checksum.js): structural equality of the recomputed
checksum with the expected token. -/
def verifyChecksum (content expected : Str) : Bool :=
  generateChecksum content == expected

/-- A lowercase hex digit. -/
def isHexCh (c : Char) : Bool :=
  ('0' ≤ c && c ≤ '9') || ('a' ≤ c && c ≤ 'f')

theorem hx_isHex (n : Nat) : isHexCh (hx n) = true := by
  unfold hx
  have hlt : n % 16 < 16 := Nat.mod_lt _ (by omega)
  have h16 : hexTable.length = 16 := by decide
  rcases Nat.lt_or_ge (n % 16) hexTable.length with h | h
  · rw [List.getD_eq_getElem _ _ h]
    have hmem := List.getElem_mem h
    have hall : hexTable.all isHexCh = true := by decide
    exact List.all_eq_true.mp hall _ hmem
  · omega

theorem wordHex_length (w : Nat) : (wordHex w).length = 8 := by
  simp [wordHex]

theorem wordHex_hex (w : Nat) : ∀ c ∈ wordHex w, isHexCh c = true := by
  intro c hc
  simp only [wordHex, List.mem_cons, List.not_mem_nil, or_false] at hc
  rcases hc with h | h | h | h | h | h | h | h <;> (subst h; exact hx_isHex _)

theorem sha256hex_length (msg : List Nat) : (sha256hex msg).length = 64 := by
  simp [sha256hex, wordHex]

theorem sha256hex_hex (msg : List Nat) :
    ∀ c ∈ sha256hex msg, isHexCh c = true := by
  intro c hc
  simp only [sha256hex, List.mem_append] at hc
  rcases hc with ((((((h | h) | h) | h) | h) | h) | h) | h <;>
    exact wordHex_hex _ _ h

/-- Known-answer test: SHA-256("abc") starts with ba7816bf8f01. -/
theorem generateChecksum_abc : generateChecksum "abc".data = "ba7816bf8f01".data := by
  decide

/-- C3. For every content string, `verifyChecksum content (generateChecksum
content)` is true; `generateChecksum` is a deterministic function of the
content (equal contents give equal tokens) and always returns a token of
exactly 12 lowercase hex characters. -/
theorem checksum_roundtrip_deterministic_12hex (content content' : Str) :
    verifyChecksum content (generateChecksum content) = true ∧
    (content = content' → generateChecksum content = generateChecksum content') ∧
    (generateChecksum content).length = 12 ∧
    ∀ c ∈ generateChecksum content, isHexCh c = true := by
  refine ⟨?_, ?_, ?_, ?_⟩
  · simp [verifyChecksum]
  · intro h; rw [h]
  · have := sha256hex_length (utf8Bytes content)
    simp [generateChecksum, List.length_take, this]
  · intro c hc
    exact sha256hex_hex _ _ (List.mem_of_mem_take hc)

/-- Witness for C3 at a concrete content. -/
theorem checksum_roundtrip_deterministic_12hex_witness :
    verifyChecksum "abc".data (generateChecksum "abc".data) = true ∧
    generateChecksum "abc".data = generateChecksum "abc".data := by
  have h := checksum_roundtrip_deterministic_12hex "abc".data "abc".data
  exact ⟨h.1, h.2.1 rfl⟩

/-! ## Path resolution (paths.js)

`resolvePath` trims the caller input, rejects absolute paths and `..` segments,
special-cases `.`/empty/`/`, normalises separators, joins against the workspace
root with POSIX `path.resolve`, and verifies the result stays under the root.
The workspace root (`CONFIG.workspace.root`) is a parameter, assumed to be an
absolute POSIX path, and `path.sep` is `/`.
-/

/-- A path separator character (the `/[/\\]/` split of `hasEscapeAttempt`). -/
def isSepCh (c : Char) : Bool := c = '/' || c = '\\'

/-- The whitespace class trimmed by JS `String.prototype.trim`. -/
def jsWs (c : Char) : Bool :=
  let n := c.toNat
  n = 0x20 || n = 0x09 || n = 0x0A || n = 0x0D || n = 0x0B || n = 0x0C ||
  n = 0xA0 || n = 0x1680 || (0x2000 ≤ n && n ≤ 0x200A) ||
  n = 0x2028 || n = 0x2029 || n = 0x202F || n = 0x205F ||
  n = 0x3000 || n = 0xFEFF

/-- JS `String.prototype.trim`. -/
def jsTrim (s : Str) : Str :=
  ((s.dropWhile jsWs).reverse.dropWhile jsWs).reverse

/-- JS `String.prototype.split` on a character class. -/
def splitP (p : Char → Bool) : Str → List Str
  | [] => [[]]
  | c :: rest =>
    if p c then [] :: splitP p rest
    else
      match splitP p rest with
      | [] => [[c]]
      | s :: ss => (c :: s) :: ss

/-- The `..` segment. -/
def ddSeg : Str := "..".data

/-- Embeds `hasEscapeAttempt` (paths.js): some segment of the path equals `..`. -/
def hasEscapeAttempt (pathStr : Str) : Bool :=
  (splitP isSepCh pathStr).any (· == ddSeg)

/-- Embeds `isAbsolutePath` (paths.js): leading `/`, or a drive-letter pattern
`^[a-zA-Z]:[/\\]`. -/
def isAbsolutePath (pathStr : Str) : Bool :=
  match pathStr with
  | [] => false
  | c :: rest =>
    if c = '/' then true
    else
      match rest with
      | ':' :: d :: _ =>
        ((0x61 ≤ c.toNat && c.toNat ≤ 0x7A) || (0x41 ≤ c.toNat && c.toNat ≤ 0x5A)) &&
          (d = '/' || d = '\\')
      | _ => false

/-- POSIX `path.resolve(root, rel)` for an absolute `root` and relative `rel`:
join, then normalise `.`/empty/`..` segments. -/
def posixResolve (root rel : Str) : Str :=
  let segs := splitP (· = '/') (root ++ '/' :: rel)
  let stack := segs.foldl
    (fun acc seg =>
      if seg = [] || seg = ".".data then acc
      else if seg = ddSeg then acc.dropLast
      else acc ++ [seg]) ([] : List Str)
  '/' :: List.intercalate "/".data stack

/-- The `resolved` record of a successful `resolvePath`. -/
structure Resolved where
  absolutePath : Str
  relativePath : Str
  virtualPath : Str
deriving Repr, DecidableEq

/-- Result of `resolvePath`: `ok` with a resolved record, or an error text. -/
inductive ResolveResult where
  | ok (resolved : Resolved)
  | err (error : Str)
deriving Repr, DecidableEq

/-- Embeds `resolvePath` (paths.js). -/
def resolvePath (root : Str) (virtualPath : Str) : ResolveResult :=
  let trimmed := jsTrim virtualPath
  if isAbsolutePath trimmed then
    .err "Absolute paths not allowed. Use relative paths within workspace.".data
  else if hasEscapeAttempt trimmed then
    .err "Path cannot contain .. segments".data
  else if trimmed = ".".data ∨ trimmed = [] ∨ trimmed = "/".data then
    .ok ⟨root, ".".data, ".".data⟩
  else
    let normalized :=
      (trimmed.map (fun c => if c = '\\' then '/' else c)).dropWhile (· = '/')
    let absolutePath := posixResolve root normalized
    if ¬ (root ++ ['/']).isPrefixOf absolutePath ∧ absolutePath ≠ root then
      .err "Path is outside workspace".data
    else
      .ok ⟨absolutePath, normalized, normalized⟩

/-! Lemmas: a `..` segment of the raw input survives trimming.  We
characterise "has a `..` segment" by an explicit decomposition and show the
decomposition is preserved by `jsTrim`. -/

/-- Decomposition form of "some `[/\\]`-separated segment equals `..`". -/
def HasDD (l : Str) : Prop :=
  ∃ a b, l = a ++ ddSeg ++ b ∧
    (a = [] ∨ ∃ a' sp, a = a' ++ [sp] ∧ isSepCh sp = true) ∧
    (b = [] ∨ ∃ sp b', b = sp :: b' ∧ isSepCh sp = true)

theorem splitP_ne_nil (p : Char → Bool) (l : Str) : splitP p l ≠ [] := by
  cases l with
  | nil => simp [splitP]
  | cons c rest =>
    by_cases hc : p c = true
    · simp [splitP, hc]
    · cases h : splitP p rest <;> simp [splitP, hc, h]

theorem splitP_sep_append (p : Char → Bool) (u v : Str) (s : Char)
    (hp : p s = true) : splitP p (u ++ s :: v) = splitP p u ++ splitP p v := by
  induction u with
  | nil => simp [splitP, hp]
  | cons c u ih =>
    by_cases hc : p c = true
    · simp [splitP, hc, ih]
    · simp only [Bool.not_eq_true] at hc
      have h1 : splitP p (c :: (u ++ s :: v)) =
          match splitP p (u ++ s :: v) with
          | [] => [[c]]
          | s' :: ss => (c :: s') :: ss := by simp [splitP, hc]
      have h2 : splitP p (c :: u) =
          match splitP p u with
          | [] => [[c]]
          | s' :: ss => (c :: s') :: ss := by simp [splitP, hc]
      rw [List.cons_append, h1, ih, h2]
      cases hu : splitP p u with
      | nil => exact absurd hu (splitP_ne_nil p u)
      | cons s' ss => simp

theorem splitP_no_sep (p : Char → Bool) (l : Str)
    (h : ∀ c ∈ l, p c = false) : splitP p l = [l] := by
  induction l with
  | nil => rfl
  | cons c rest ih =>
    have hc : p c = false := h c (by simp)
    have hrest := ih (fun c hc' => h c (by simp [hc']))
    simp [splitP, hc, hrest]

theorem splitP_cons_inv (p : Char → Bool) :
    ∀ (l : Str) {s : Str} {ss : List Str}, splitP p l = s :: ss →
      (l = s ∧ ss = []) ∨
      ∃ sp tail, p sp = true ∧ l = s ++ sp :: tail ∧ splitP p tail = ss := by
  intro l
  induction l with
  | nil =>
    intro s ss h
    simp only [splitP] at h
    cases h
    exact .inl ⟨rfl, rfl⟩
  | cons c rest ih =>
    intro s ss h
    by_cases hc : p c = true
    · simp only [splitP, if_pos hc] at h
      cases h
      exact .inr ⟨c, rest, hc, by simp, rfl⟩
    · simp only [splitP, if_neg hc] at h
      cases hrest : splitP p rest with
      | nil => exact absurd hrest (splitP_ne_nil p rest)
      | cons s' ss' =>
        rw [hrest] at h
        cases h
        rcases ih hrest with ⟨rfl, rfl⟩ | ⟨sp, tail, hsp, heq, htail⟩
        · exact .inl ⟨rfl, rfl⟩
        · exact .inr ⟨sp, tail, hsp, by simp [heq], htail⟩

theorem hasDD_of_escape : ∀ (l : Str), hasEscapeAttempt l = true → HasDD l := by
  have main : ∀ n (l : Str), l.length ≤ n → hasEscapeAttempt l = true → HasDD l := by
    intro n
    induction n with
    | zero =>
      intro l hlen h
      interval_cases hl : l.length
      · rw [List.length_eq_zero] at hl
        subst hl
        simp [hasEscapeAttempt, splitP, ddSeg] at h
    | succ n ih =>
      intro l hlen h
      unfold hasEscapeAttempt at h
      cases hsplit : splitP isSepCh l with
      | nil => rw [hsplit] at h; simp at h
      | cons s ss =>
        rw [hsplit] at h
        simp only [List.any_cons, Bool.or_eq_true, beq_iff_eq] at h
        rcases h with hs | hss
        · subst hs
          rcases splitP_cons_inv isSepCh l hsplit with
            ⟨rfl, rfl⟩ | ⟨sp, tail, hsp, heq, _⟩
          · exact ⟨[], [], by simp, .inl rfl, .inl rfl⟩
          · exact ⟨[], sp :: tail, by simpa using heq, .inl rfl,
              .inr ⟨sp, tail, rfl, hsp⟩⟩
        · rcases splitP_cons_inv isSepCh l hsplit with
            ⟨rfl, rfl⟩ | ⟨sp, tail, hsp, heq, htail⟩
          · simp at hss
          · have htlen : tail.length ≤ n := by
              have := congrArg List.length heq
              simp [List.length_append] at this
              omega
            have hdd : HasDD tail := by
              apply ih tail htlen
              unfold hasEscapeAttempt
              rw [htail]
              exact hss
            rcases hdd with ⟨a, b, rfl, hA, hB⟩
            refine ⟨s ++ sp :: a, b, by simp [heq], .inr ?_, hB⟩
            rcases hA with rfl | ⟨a', sp', rfl, hsp'⟩
            · exact ⟨s, sp, by simp, hsp⟩
            · exact ⟨s ++ sp :: a', sp', by simp, hsp'⟩
  exact fun l => main l.length l le_rfl

theorem escape_of_hasDD (l : Str) (h : HasDD l) : hasEscapeAttempt l = true := by
  have base : ∀ b : Str, (b = [] ∨ ∃ sp b', b = sp :: b' ∧ isSepCh sp = true) →
      hasEscapeAttempt (ddSeg ++ b) = true := by
    intro b hB
    rcases hB with rfl | ⟨sp, b', rfl, hsp⟩
    · have : splitP isSepCh ddSeg = [ddSeg] := by decide
      simp [hasEscapeAttempt, this]
    · unfold hasEscapeAttempt
      rw [splitP_sep_append isSepCh ddSeg b' sp hsp]
      have : splitP isSepCh ddSeg = [ddSeg] := by decide
      simp [this]
  rcases h with ⟨a, b, rfl, hA, hB⟩
  rcases hA with rfl | ⟨a', sp, rfl, hsp⟩
  · simpa using base b hB
  · unfold hasEscapeAttempt
    have : a' ++ [sp] ++ ddSeg ++ b = a' ++ sp :: (ddSeg ++ b) := by simp
    rw [this, splitP_sep_append isSepCh a' (ddSeg ++ b) sp hsp]
    have hb := base b hB
    unfold hasEscapeAttempt at hb
    simp only [List.any_append, Bool.or_eq_true]
    exact .inr hb

theorem hasDD_reverse (l : Str) (h : HasDD l) : HasDD l.reverse := by
  rcases h with ⟨a, b, rfl, hA, hB⟩
  refine ⟨b.reverse, a.reverse, ?_, ?_, ?_⟩
  · have hdd : ddSeg.reverse = ddSeg := by decide
    simp [List.reverse_append, hdd]
  · rcases hB with rfl | ⟨sp, b', rfl, hsp⟩
    · exact .inl rfl
    · exact .inr ⟨b'.reverse, sp, by simp, hsp⟩
  · rcases hA with rfl | ⟨a', sp, rfl, hsp⟩
    · exact .inl rfl
    · exact .inr ⟨sp, a'.reverse, by simp, hsp⟩

theorem jsWs_sep_false (c : Char) (h : isSepCh c = true) : jsWs c = false := by
  simp only [isSepCh, Bool.or_eq_true, decide_eq_true_eq] at h
  rcases h with rfl | rfl <;> decide

theorem hasDD_dropWhile (l : Str) (h : HasDD l) : HasDD (l.dropWhile jsWs) := by
  rcases h with ⟨a, b, rfl, hA, hB⟩
  rcases hA with rfl | ⟨a', sp, rfl, hsp⟩
  · refine ⟨[], b, ?_, .inl rfl, hB⟩
    have : jsWs '.' = false := by decide
    simp [ddSeg, List.dropWhile, this]
  · have hspws : jsWs sp = false := jsWs_sep_false sp hsp
    have hstep : (a' ++ [sp]).dropWhile jsWs = a'.dropWhile jsWs ++ [sp] ∨
        (a' ++ [sp]).dropWhile jsWs = [sp] := by
      rw [List.dropWhile_append]
      by_cases he : (a'.dropWhile jsWs).isEmpty
      · rw [if_pos he]
        right
        simp [List.dropWhile, hspws]
      · rw [if_neg he]
        left; rfl
    have hsplit : (a' ++ [sp] ++ ddSeg ++ b).dropWhile jsWs =
        (a' ++ [sp]).dropWhile jsWs ++ (ddSeg ++ b) := by
      have : a' ++ [sp] ++ ddSeg ++ b = (a' ++ [sp]) ++ (ddSeg ++ b) := by simp
      rw [this, List.dropWhile_append]
      by_cases he : ((a' ++ [sp]).dropWhile jsWs).isEmpty
      · exfalso
        rcases hstep with h1 | h1 <;> rw [h1] at he <;> simp at he
      · rw [if_neg he]
    rcases hstep with h1 | h1
    · refine ⟨a'.dropWhile jsWs ++ [sp], b, ?_, .inr ⟨a'.dropWhile jsWs, sp, rfl, hsp⟩, hB⟩
      rw [hsplit, h1]
      simp
    · refine ⟨[sp], b, ?_, .inr ⟨[], sp, rfl, hsp⟩, hB⟩
      rw [hsplit, h1]
      simp

theorem escape_trim (l : Str) (h : hasEscapeAttempt l = true) :
    hasEscapeAttempt (jsTrim l) = true := by
  apply escape_of_hasDD
  unfold jsTrim
  exact hasDD_reverse _ (hasDD_dropWhile _ (hasDD_reverse _ (hasDD_dropWhile _ (hasDD_of_escape l h))))

theorem jsWs_letter_false (c : Char)
    (h : ((0x61 ≤ c.toNat && c.toNat ≤ 0x7A) ||
          (0x41 ≤ c.toNat && c.toNat ≤ 0x5A)) = true) : jsWs c = false := by
  simp only [Bool.or_eq_true, Bool.and_eq_true, decide_eq_true_eq] at h
  rw [Bool.eq_false_iff]
  intro hws
  simp only [jsWs, Bool.or_eq_true, Bool.and_eq_true, decide_eq_true_eq] at hws
  omega

theorem dropWhile_cons_head (w : Char → Bool) (c : Char) (t : Str)
    (hc : w c = false) : (c :: t).dropWhile w = c :: t := by
  simp [List.dropWhile, hc]

theorem abs_trim (l : Str) (h : isAbsolutePath l = true) :
    isAbsolutePath (jsTrim l) = true := by
  cases l with
  | nil => simp [isAbsolutePath] at h
  | cons c rest =>
    by_cases hc : c = '/'
    · subst hc
      have hws : jsWs '/' = false := by decide
      unfold jsTrim
      rw [dropWhile_cons_head jsWs '/' rest hws]
      have hrev : ('/' :: rest).reverse = rest.reverse ++ ['/'] := by simp
      rw [hrev, List.dropWhile_append]
      by_cases he : (rest.reverse.dropWhile jsWs).isEmpty
      · rw [if_pos he]
        simp [List.dropWhile, hws, isAbsolutePath]
      · rw [if_neg he, List.reverse_append]
        cases hx : (rest.reverse.dropWhile jsWs).reverse with
        | nil =>
          exfalso
          have : rest.reverse.dropWhile jsWs = [] := by
            have := congrArg List.reverse hx
            simpa using this
          rw [this] at he
          simp at he
        | cons x xs => simp [isAbsolutePath]
    · cases rest with
      | nil => simp [isAbsolutePath, hc] at h
      | cons c2 rest2 =>
        cases rest2 with
        | nil =>
          simp only [isAbsolutePath, if_neg hc] at h
          by_cases hcol : c2 = ':' <;> simp [hcol] at h
        | cons d rest3 =>
          by_cases hcol : c2 = ':'
          · subst hcol
            simp only [isAbsolutePath, if_neg hc, Bool.and_eq_true] at h
            obtain ⟨hletter, hd⟩ := h
            have hdws : jsWs d = false := by
              simp only [Bool.or_eq_true, decide_eq_true_eq] at hd
              rcases hd with rfl | rfl <;> decide
            have hcws : jsWs c = false := jsWs_letter_false c hletter
            unfold jsTrim
            rw [dropWhile_cons_head jsWs c _ hcws]
            have hrev : (c :: ':' :: d :: rest3).reverse =
                rest3.reverse ++ [d, ':', c] := by simp
            rw [hrev, List.dropWhile_append]
            by_cases he : (rest3.reverse.dropWhile jsWs).isEmpty
            · rw [if_pos he]
              have h3 : ([d, ':', c] : Str).dropWhile jsWs = [d, ':', c] :=
                dropWhile_cons_head jsWs d [':', c] hdws
              rw [h3]
              have h4 : ([d, ':', c] : Str).reverse = [c, ':', d] := by rfl
              rw [h4]
              simp [isAbsolutePath, hc, hletter, hd]
            · rw [if_neg he, List.reverse_append]
              have h4 : ([d, ':', c] : Str).reverse = [c, ':', d] := by rfl
              rw [h4]
              simp [isAbsolutePath, hc, hletter, hd]
          · simp [isAbsolutePath, hc, hcol] at h

/-- Whether a `ResolveResult` is an error. -/
def ResolveResult.isErr : ResolveResult → Bool
  | .err _ => true
  | .ok _ => false

/-- C1. Sandbox containment of `resolvePath`: any raw input with a `..`
segment or absolute-path syntax is rejected with an error (surfaced by the
orchestrators as INVALID_PATH), and every accepted input resolves to the
root itself or to a strict descendant of `root + "/"`. -/
theorem resolvePath_sandbox_containment (root input : Str) :
    (hasEscapeAttempt input = true ∨ isAbsolutePath input = true →
      (resolvePath root input).isErr = true) ∧
    (∀ r, resolvePath root input = .ok r →
      r.absolutePath = root ∨
        ((root ++ ['/']) <+: r.absolutePath ∧ r.absolutePath ≠ root)) := by
  constructor
  · intro h
    unfold resolvePath
    by_cases habs' : isAbsolutePath (jsTrim input) = true
    · simp [habs', ResolveResult.isErr]
    · rcases h with hesc | habs
      · have htrim := escape_trim input hesc
        simp [habs', htrim, ResolveResult.isErr]
      · exact absurd (abs_trim input habs) habs'
  · intro r hr
    unfold resolvePath at hr
    by_cases habs : isAbsolutePath (jsTrim input) = true
    · simp [habs] at hr
    · rw [if_neg (by simp [habs])] at hr
      by_cases hesc : hasEscapeAttempt (jsTrim input) = true
      · simp [hesc] at hr
      · rw [if_neg (by simp [hesc])] at hr
        by_cases hspec : jsTrim input = ".".data ∨ jsTrim input = [] ∨
            jsTrim input = "/".data
        · rw [if_pos hspec] at hr
          cases hr
          exact .inl rfl
        · rw [if_neg hspec] at hr
          simp only at hr
          by_cases hguard : ¬ (root ++ ['/']).isPrefixOf
              (posixResolve root
                (((jsTrim input).map (fun c => if c = '\\' then '/' else c)).dropWhile
                  (· = '/'))) ∧
              posixResolve root
                (((jsTrim input).map (fun c => if c = '\\' then '/' else c)).dropWhile
                  (· = '/')) ≠ root
          · rw [if_pos hguard] at hr
            exact absurd hr (by simp)
          · rw [if_neg hguard] at hr
            cases hr
            dsimp only
            push_neg at hguard
            by_cases hpre : (root ++ ['/']).isPrefixOf
                (posixResolve root
                  (((jsTrim input).map (fun c => if c = '\\' then '/' else c)).dropWhile
                    (· = '/'))) = true
            · right
              refine ⟨List.isPrefixOf_iff_prefix.mp hpre, ?_⟩
              intro hcontra
              have hlen := (List.isPrefixOf_iff_prefix.mp hpre).length_le
              rw [hcontra] at hlen
              simp only [List.length_append, List.length_cons,
                List.length_nil] at hlen
              omega
            · left
              exact hguard (by simpa using hpre)

/-- Witness for C1: `../x` is rejected; `a/b` resolves strictly under the
root. -/
theorem resolvePath_sandbox_containment_witness :
    (resolvePath "/ws".data "../x".data).isErr = true ∧
    ("/ws/a/b".data = "/ws".data ∨
      (("/ws".data ++ ['/']) <+: "/ws/a/b".data ∧ "/ws/a/b".data ≠ "/ws".data)) := by
  constructor
  · exact (resolvePath_sandbox_containment "/ws".data "../x".data).1
      (.inl (by decide))
  · exact (resolvePath_sandbox_containment "/ws".data "a/b".data).2
      ⟨"/ws/a/b".data, "a/b".data, "a/b".data⟩ (by decide)

/-! ## Line editing (lib/lines.js)

All functions are 1-indexed.  JS `Array.prototype.slice` is modelled with
`Int` indices (negative indices count from the end), because the orchestrator
can pass `start - 1 = -1` when a parsed line range starts at 0.
-/

/-- Index normalisation shared by JS `slice`/`splice`. -/
def jsSliceIdx (len : Nat) (i : Int) : Nat :=
  if i < 0 then (len + i).toNat else min i.toNat len

/-- JS `Array.prototype.slice(start, stop?)`. -/
def jsSlice (l : List α) (start : Int) (stop : Option Int) : List α :=
  let b := jsSliceIdx l.length start
  let e := match stop with
    | none => l.length
    | some j => jsSliceIdx l.length j
  (l.take e).drop b

/-- Embeds `content.split('\n')`. -/
def splitNL (s : Str) : List Str := splitP (· = '\n') s

/-- Embeds `lines.join('\n')`. -/
def joinNL (ls : List Str) : Str := List.intercalate ['\n'] ls

/-- Decimal digits of a natural number (structural fuel). -/
def natDecAux : Nat → Nat → Str
  | 0, _ => []
  | fuel + 1, n =>
    if n < 10 then [Char.ofNat (48 + n)]
    else natDecAux fuel (n / 10) ++ [Char.ofNat (48 + n % 10)]

/-- JS `String(n)` for a natural number. -/
def natDec (n : Nat) : Str := natDecAux (n + 1) n

/-- JS `String(n)` for an integer. -/
def intDec (n : Int) : Str :=
  if n < 0 then '-' :: natDec (-n).toNat else natDec n.toNat

/-- JS `parseInt` on a digit string. -/
def parseNat (s : Str) : Nat :=
  s.foldl (fun acc c => acc * 10 + (c.toNat - 48)) 0

/-- Matches `^\d+$`. -/
def allDigits (s : Str) : Bool := !s.isEmpty && s.all Char.isDigit

/-- A parsed line range; `stop` is the source's `end` field (a Lean keyword). -/
structure LineRange where
  start : Int
  stop : Int
deriving Repr, DecidableEq

/-- Embeds `parseLineRange` (lib/lines.js): `"N"` or `"A-B"` with `A ≤ B`. -/
def parseLineRange (range : Str) : Option LineRange :=
  let trimmed := jsTrim range
  if allDigits trimmed then
    some ⟨(parseNat trimmed : Nat), (parseNat trimmed : Nat)⟩
  else
    let a := trimmed.takeWhile Char.isDigit
    match trimmed.dropWhile Char.isDigit with
    | '-' :: b =>
      if !a.isEmpty && allDigits b then
        let s : Int := (parseNat a : Nat)
        let e : Int := (parseNat b : Nat)
        if s ≤ e then some ⟨s, e⟩ else none
      else none
    | _ => none

/-- Left-pad with a character (JS `padStart`). -/
def padStart (s : Str) (w : Nat) (c : Char) : Str :=
  List.replicate (w - s.length) c ++ s

/-- Embeds `addLineNumbers` (lib/lines.js): prefix each line with a right-aligned
1-indexed number and `|`. -/
def addLineNumbers (content : Str) (startLine : Int) : Str :=
  let lines := splitNL content
  let maxLineNum := startLine + lines.length - 1
  let width := (intDec maxLineNum).length
  joinNL <| (List.range lines.length).zip lines |>.map fun (i, line) =>
    padStart (intDec (startLine + i)) width ' ' ++ '|' :: line

/-- Result of `extractLines`. -/
structure Extracted where
  text : Str
  actualStart : Int
  actualEnd : Int
deriving Repr, DecidableEq

/-- Embeds `extractLines` (lib/lines.js): clamped inclusive 1-indexed range. -/
def extractLines (content : Str) (start stop : Int) : Extracted :=
  let lines := splitNL content
  let actualStart := max 1 start
  let actualEnd := min (lines.length : Int) stop
  ⟨joinNL (jsSlice lines (actualStart - 1) (some actualEnd)), actualStart, actualEnd⟩

/-- Embeds `replaceLines` (lib/lines.js). -/
def replaceLines (content : Str) (start stop : Int) (replacement : Str) : Str :=
  let lines := splitNL content
  let before := jsSlice lines 0 (some (start - 1))
  let after := jsSlice lines stop none
  joinNL (before ++ [replacement] ++ after)

/-- Insert at a (clamped) 0-based index, JS `splice(idx, 0, x)`. -/
def spliceInsert (lines : List Str) (idx : Nat) (ins : Str) : List Str :=
  lines.take idx ++ [ins] ++ lines.drop idx

/-- Embeds `insertBeforeLine` (lib/lines.js). -/
def insertBeforeLine (content : Str) (line : Int) (insertion : Str) : Str :=
  let lines := splitNL content
  let insertIndex := jsSliceIdx lines.length (max 0 (line - 1))
  joinNL (spliceInsert lines insertIndex insertion)

/-- Embeds `insertAfterLine` (lib/lines.js). -/
def insertAfterLine (content : Str) (line : Int) (insertion : Str) : Str :=
  let lines := splitNL content
  let insertIndex := jsSliceIdx lines.length (min (lines.length : Int) line)
  joinNL (spliceInsert lines insertIndex insertion)

/-- Embeds `deleteLines` (lib/lines.js). -/
def deleteLines (content : Str) (start stop : Int) : Str :=
  let lines := splitNL content
  let before := jsSlice lines 0 (some (start - 1))
  let after := jsSlice lines stop none
  joinNL (before ++ after)

/-! ## Pattern matching (lib/patterns.js), literal mode

`buildPattern` in `literal` mode escapes the pattern, so the compiled regex
matches exactly the literal pattern string.  `findMatches` is embedded for
that mode (the default, and the mode all claims use): a leftmost scan whose
cursor advances past each match, with the zero-width advance of the source
(`regex.lastIndex++`).  The `maxMatches` cap collects the first `maxMatches`
matches of this scan.
-/

/-- The match record of `findMatches`. -/
structure PMatch where
  index : Nat
  text : Str
  line : Nat
  column : Nat
deriving Repr, DecidableEq

/-- 1-indexed line of a content offset (`beforeMatch.split('\n').length`). -/
def lineOfIdx (content : Str) (i : Nat) : Nat :=
  (splitNL (content.take i)).length

/-- 1-indexed column of a content offset. -/
def colOfIdx (content : Str) (i : Nat) : Nat :=
  ((splitNL (content.take i)).getLast?.getD []).length + 1

/-- First offset `≥ i` where `pat` occurs in `content` (regex `exec` with an
escaped literal pattern). -/
def findFromAux (content pat : Str) : Nat → Nat → Option Nat
  | _, 0 => none
  | i, fuel + 1 =>
    if pat.isPrefixOf (content.drop i) then some i
    else if i < content.length then findFromAux content pat (i + 1) fuel
    else none

/-- All literal matches from offset `pos` on (uncapped scan). -/
def scanLitAux (content pat : Str) : Nat → Nat → List PMatch
  | _, 0 => []
  | pos, fuel + 1 =>
    match findFromAux content pat pos (content.length + 1 - pos) with
    | none => []
    | some i =>
      ⟨i, pat, lineOfIdx content i, colOfIdx content i⟩ ::
        scanLitAux content pat (if pat.length = 0 then i + 1 else i + pat.length) fuel

/-- The full leftmost non-overlapping literal scan of `content`. -/
def scanLit (content pat : Str) : List PMatch :=
  scanLitAux content pat 0 (content.length + 2)

/-- Number of literal occurrences (the uncapped scan length). -/
def countLitOcc (content pat : Str) : Nat := (scanLit content pat).length

/-- Embeds `findMatches` (lib/patterns.js) in literal mode: the scan capped at
`maxMatches`. -/
def findMatchesLit (content pat : Str) (maxMatches : Nat) : List PMatch :=
  (scanLit content pat).take maxMatches

/-- Result of `findUniqueMatch`. -/
inductive UniqueMatchResult where
  | notFound
  | multiple (count : Nat) (lines : List Nat)
  | unique (m : PMatch)
deriving Repr, DecidableEq

/-- Embeds `findUniqueMatch` (lib/patterns.js), literal mode: scan capped at 10. -/
def findUniqueMatchLit (content pat : Str) : UniqueMatchResult :=
  let ms := findMatchesLit content pat 10
  if ms.length = 0 then .notFound
  else if ms.length > 1 then .multiple ms.length (ms.map (·.line))
  else
    match ms with
    | m :: _ => .unique m
    | [] => .notFound

/-- Splice a replacement over `[idx, idx+len)` of a string. -/
def spliceStr (s : Str) (idx len : Nat) (repl : Str) : Str :=
  s.take idx ++ repl ++ s.drop (idx + len)

/-- Ascending insertion sort. -/
def insertSorted (x : Nat) : List Nat → List Nat
  | [] => [x]
  | y :: ys => if x ≤ y then x :: y :: ys else y :: insertSorted x ys

/-- Ascending sort (JS `sort((a, b) => a - b)`). -/
def sortAsc (l : List Nat) : List Nat := l.foldr insertSorted []

/-- Result of `replaceAllMatches`. -/
structure ReplaceAllResult where
  newContent : Str
  count : Nat
  affectedLines : List Nat
deriving Repr, DecidableEq

/-- Embeds `replaceAllMatches` (lib/patterns.js), literal mode: scan capped at
10000, replacements applied back-to-front, affected lines deduplicated and
sorted ascending. -/
def replaceAllMatchesLit (content pat repl : Str) : ReplaceAllResult :=
  let ms := findMatchesLit content pat 10000
  if ms.length = 0 then ⟨content, 0, []⟩
  else
    let newContent := ms.reverse.foldl
      (fun acc m => spliceStr acc m.index m.text.length repl) content
    ⟨newContent, ms.length, sortAsc (ms.map (·.line)).dedup⟩

theorem findMatchesLit_length (content pat : Str) (cap : Nat) :
    (findMatchesLit content pat cap).length = min (countLitOcc content pat) cap := by
  simp [findMatchesLit, countLitOcc, List.length_take, Nat.min_comm]

/-- Counterexample to C4 as stated: with 11 literal occurrences of `ab`, the
`multiple` discriminator reports `count = 10` (the 10-match cap of
`findUniqueMatch`), not `k = 11`. -/
theorem findUniqueMatch_cap_counterexample :
    countLitOcc "ababababababababababab".data "ab".data = 11 ∧
    2 ≤ 11 ∧
    findUniqueMatchLit "ababababababababababab".data "ab".data =
      .multiple 10 [1, 1, 1, 1, 1, 1, 1, 1, 1, 1] ∧
    (((10 : Nat) == 11) = false) := by
  refine ⟨by decide, by decide, by decide, by decide⟩

/-- C4 (amended). For content with exactly `k ≥ 2` literal occurrences of a
pattern, `findUniqueMatch` returns the `multiple` discriminator (surfaced as
MULTIPLE_MATCHES) with `count = min k 10` (its scan is capped at 10 matches),
and `replaceAllMatches` performs exactly `min k 10000` substitutions. -/
theorem multiple_matches_counts (content pat repl : Str) (k : Nat)
    (hk : countLitOcc content pat = k) (h2 : 2 ≤ k) :
    (∃ lines, findUniqueMatchLit content pat = .multiple (min k 10) lines) ∧
    (replaceAllMatchesLit content pat repl).count = min k 10000 := by
  have h10 : (findMatchesLit content pat 10).length = min k 10 := by
    rw [findMatchesLit_length, hk]
  have h10000 : (findMatchesLit content pat 10000).length = min k 10000 := by
    rw [findMatchesLit_length, hk]
  constructor
  · refine ⟨(findMatchesLit content pat 10).map (·.line), ?_⟩
    unfold findUniqueMatchLit
    rw [if_neg (by omega : ¬ (findMatchesLit content pat 10).length = 0),
      if_pos (by omega : (findMatchesLit content pat 10).length > 1), h10]
  · unfold replaceAllMatchesLit
    rw [if_neg (by omega : ¬ (findMatchesLit content pat 10000).length = 0)]
    exact h10000

/-- Witness for C4 (amended) at `k = 2`. -/
theorem multiple_matches_counts_witness :
    (∃ lines, findUniqueMatchLit "abxab".data "ab".data = .multiple (min 2 10) lines) ∧
    (replaceAllMatchesLit "abxab".data "ab".data "c".data).count = min 2 10000 :=
  multiple_matches_counts "abxab".data "ab".data "c".data 2 (by decide) (by decide)

/-! ## Unified diff (lib/diff.js)

`generateDiff` walks old/new line arrays with two cursors, skipping equal
lines, then grows a divergence window (`diffInner`) that stops after seeing 3
consecutive equal lines, and emits a hunk of leading context, removals,
additions and trailing context.  The hunks are built structurally
(`generateDiffHunks`) and rendered to the exact output string
(`generateDiff`).
-/

/-- One rendered diff line. -/
inductive DLine where
  | ctx (s : Str)
  | del (s : Str)
  | add (s : Str)
deriving Repr, DecidableEq

/-- One hunk with its `@@ -a,b +c,d @@` header data (1-indexed starts). -/
structure DHunk where
  oldStart : Nat
  oldLen : Nat
  newStart : Nat
  newLen : Nat
  lines : List DLine
deriving Repr, DecidableEq

/-- The equal-prefix skip of the outer loop. -/
def skipEqual (ol nl : List Str) : Nat → Nat → Nat → Nat × Nat
  | i, j, 0 => (i, j)
  | i, j, fuel + 1 =>
    if i < ol.length && j < nl.length && (ol.getD i [] == nl.getD j []) then
      skipEqual ol nl (i + 1) (j + 1) fuel
    else (i, j)

/-- The inner window loop of `generateDiff` (lib/diff.js lines 49-74):
returns `(oldEnd, newEnd, contextAfter)`. -/
def diffInner (ol nl : List Str) : Nat → Nat → Nat → Nat → Nat × Nat × Nat
  | oldEnd, newEnd, ca, 0 => (oldEnd, newEnd, ca)
  | oldEnd, newEnd, ca, fuel + 1 =>
    if oldEnd < ol.length || newEnd < nl.length then
      if oldEnd < ol.length && newEnd < nl.length &&
          (ol.getD oldEnd [] == nl.getD newEnd []) then
        let ca' := ca + 1
        if ca' ≥ 3 then (oldEnd, newEnd, ca')
        else diffInner ol nl (oldEnd + 1) (newEnd + 1) ca' fuel
      else
        let oldEnd' :=
          if oldEnd < ol.length &&
              (decide (newEnd ≥ nl.length) || !(ol.getD oldEnd [] == nl.getD newEnd []))
          then oldEnd + 1 else oldEnd
        let newEnd' :=
          if newEnd < nl.length &&
              (decide (oldEnd' ≥ ol.length) || !(ol.getD (oldEnd' - 1) [] == nl.getD newEnd []))
          then newEnd + 1 else newEnd
        diffInner ol nl oldEnd' newEnd' 0 fuel
    else (oldEnd, newEnd, ca)

/-- The outer loop of `generateDiff`, producing structured hunks. -/
def diffOuterAux (ol nl : List Str) : Nat → Nat → Nat → List DHunk
  | _, _, 0 => []
  | i0, j0, fuel + 1 =>
    let ij := skipEqual ol nl i0 j0 (ol.length + nl.length + 1)
    let i := ij.1
    let j := ij.2
    if i ≥ ol.length && j ≥ nl.length then []
    else
      let hunkStartOld := i - 3
      let hunkStartNew := j - 3
      let oec := diffInner ol nl i j 0 (ol.length + nl.length + 1)
      let oldEnd := oec.1
      let newEnd := oec.2.1
      let ca := oec.2.2
      let leading := ((ol.drop hunkStartOld).take (i - hunkStartOld)).map DLine.ctx
      let removed := ((ol.drop i).take (oldEnd - ca - i)).map DLine.del
      let added := ((nl.drop j).take (newEnd - ca - j)).map DLine.add
      let trailing := ((ol.drop (oldEnd - ca)).take ca).map DLine.ctx
      let hunkLines := leading ++ removed ++ added ++ trailing
      let rest := diffOuterAux ol nl oldEnd newEnd fuel
      if hunkLines.length > 0 then
        ⟨hunkStartOld + 1, oldEnd - hunkStartOld, hunkStartNew + 1,
          newEnd - hunkStartNew, hunkLines⟩ :: rest
      else rest

/-- The hunks of `generateDiff(oldContent, newContent)`. -/
def generateDiffHunks (oldContent newContent : Str) : List DHunk :=
  let ol := splitNL oldContent
  let nl := splitNL newContent
  diffOuterAux ol nl 0 0 (ol.length + nl.length + 2)

/-- Render one diff line with its `' '`/`'-'`/`'+'` marker. -/
def renderDLine : DLine → Str
  | .ctx s => ' ' :: s
  | .del s => '-' :: s
  | .add s => '+' :: s

/-- Render one hunk with its `@@ -a,b +c,d @@` header. -/
def renderHunk (h : DHunk) : Str :=
  "@@ -".data ++ natDec h.oldStart ++ [','] ++ natDec h.oldLen ++
  " +".data ++ natDec h.newStart ++ [','] ++ natDec h.newLen ++ " @@".data ++
  ['\n'] ++ joinNL (h.lines.map renderDLine)

/-- Embeds `generateDiff` (lib/diff.js): full output string. -/
def generateDiff (oldContent newContent filename : Str) : Str :=
  let hunks := generateDiffHunks oldContent newContent
  if hunks.length = 0 then "(no changes)".data
  else
    "--- a/".data ++ filename ++ "\n+++ b/".data ++ filename ++ ['\n'] ++
      joinNL (hunks.map renderHunk)

/-- The old-file side of a hunk (context and removed lines). -/
def hunkOldSide (h : DHunk) : List Str :=
  h.lines.filterMap fun
    | .ctx s => some s
    | .del s => some s
    | .add _ => none

/-- The new-file side of a hunk (context and added lines). -/
def hunkNewSide (h : DHunk) : List Str :=
  h.lines.filterMap fun
    | .ctx s => some s
    | .add s => some s
    | .del _ => none

/-- Modelled from the spec: apply unified-diff hunks to the old lines — each
hunk's context/removed lines must match the old file at the header's
1-indexed `oldStart`, and are replaced by its context/added lines.  Returns
`none` when a hunk does not apply. -/
def applyHunks : List DHunk → List Str → Nat → List Str → Option (List Str)
  | [], ol, cursor, acc => some (acc ++ ol.drop cursor)
  | h :: rest, ol, cursor, acc =>
    let oldSide := hunkOldSide h
    let newSide := hunkNewSide h
    if cursor ≤ h.oldStart - 1 ∧
        (ol.drop (h.oldStart - 1)).take oldSide.length = oldSide ∧
        oldSide.length = h.oldLen ∧ newSide.length = h.newLen then
      let pre := (ol.drop cursor).take (h.oldStart - 1 - cursor)
      applyHunks rest ol (h.oldStart - 1 + h.oldLen) (acc ++ pre ++ newSide)
    else none

/-- Apply a generated diff to the old content, as a line list. -/
def applyDiff (oldContent newContent : Str) : Option (List Str) :=
  applyHunks (generateDiffHunks oldContent newContent) (splitNL oldContent) 0 []

/-- C5 refuted (code bug). For `old = "a\nX\nc\nd\ne\nf"` and
`new = "a\nY\nc\nd\ne\nf"`, `generateDiff` emits a single hunk consisting
only of context lines — the changed line `X` is misclassified as context and
`Y` is dropped — so applying the hunks to `old` reproduces `old`, not `new`.
The rendered output is shown verbatim: it contains no `-`/`+` lines although
the contents differ. -/
theorem generateDiff_loses_change :
    (("a\nX\nc\nd\ne\nf".data == "a\nY\nc\nd\ne\nf".data) = false) ∧
    generateDiff "a\nX\nc\nd\ne\nf".data "a\nY\nc\nd\ne\nf".data "file".data =
      "--- a/file\n+++ b/file\n@@ -1,4 +1,4 @@\n a\n X\n c\n d".data ∧
    applyDiff "a\nX\nc\nd\ne\nf".data "a\nY\nc\nd\ne\nf".data =
      some (splitNL "a\nX\nc\nd\ne\nf".data) ∧
    ((splitNL "a\nX\nc\nd\ne\nf".data == splitNL "a\nY\nc\nd\ne\nf".data) =
      false) := by
  refine ⟨by decide, by decide, by decide, by decide⟩

/-! ## Ignore rules (lib/ignore.js)

`globToRegex` translates a glob into a regex by escaping dots and mapping
`**` to `.*`, `*` to `[^/]*`, `?` to `[^/]`; without a trailing `/` the
source is wrapped as `(^|/)…(/.*)?$`, with a trailing `/` the translated
string loses its last two characters and gets `(/.*)?$` (unanchored).
The embedding covers glob patterns over ordinary path characters plus
`.`/`*`/`?` (patterns containing other regex metacharacters, which the
source passes through unescaped, are outside the model).  `createIgnoreMatcher`
prepends the default rules and keeps the leading `!` of a negated pattern in
the compiled glob; `isIgnored` folds the rules, last match winning. -/

/-- Tokens of the translated glob regex. -/
inductive GTok where
  | lit (c : Char)
  | star
  | gstar
  | qm
  | anyc
deriving Repr, DecidableEq

/-- Tokenise a glob (the `**`/`*`/`?`/escaped-dot replace chain). -/
def globTokens : Str → List GTok
  | [] => []
  | '*' :: '*' :: rest => .gstar :: globTokens rest
  | '*' :: rest => .star :: globTokens rest
  | '?' :: rest => .qm :: globTokens rest
  | c :: rest => .lit c :: globTokens rest

/-- Not a JS line terminator (what `.` and `.*` may consume without `s`). -/
def noLineTerm (c : Char) : Bool :=
  !(c = '\n' || c = '\r' || c = '\u2028' || c = '\u2029')

/-- Token-list regex matching over a full slice (fuel-structured backtracking;
fuel `ts.length + s.length + 1` always suffices). -/
def matchToksAux : Nat → List GTok → Str → Bool
  | 0, _, _ => false
  | fuel + 1, ts, s =>
    match ts, s with
    | [], [] => true
    | [], _ :: _ => false
    | .lit c :: ts', x :: xs => (x == c) && matchToksAux fuel ts' xs
    | .lit _ :: _, [] => false
    | .qm :: ts', x :: xs => (x != '/') && matchToksAux fuel ts' xs
    | .qm :: _, [] => false
    | .anyc :: ts', x :: xs => noLineTerm x && matchToksAux fuel ts' xs
    | .anyc :: _, [] => false
    | .star :: ts', s' =>
      matchToksAux fuel ts' s' ||
        (match s' with
         | x :: xs => (x != '/') && matchToksAux fuel (.star :: ts') xs
         | [] => false)
    | .gstar :: ts', s' =>
      matchToksAux fuel ts' s' ||
        (match s' with
         | x :: xs => noLineTerm x && matchToksAux fuel (.gstar :: ts') xs
         | [] => false)

/-- Full match of a token list against a string slice. -/
def matchToks (ts : List GTok) (s : Str) : Bool :=
  matchToksAux (ts.length + s.length + 1) ts s

/-- After the matched slice, `(/.*)?$` requires end of string or `/` followed
by line-terminator-free text. -/
def globTailOk (s : Str) (j : Nat) : Bool :=
  decide (j = s.length) ||
    ((s.getD j ' ' == '/') && (s.drop (j + 1)).all noLineTerm)

/-- Semantics of `(^|/)T(/.*)?$` under JS substring search. -/
def testAnchored (ts : List GTok) (s : Str) : Bool :=
  (List.range (s.length + 1)).any fun i =>
    (decide (i = 0) || (s.getD (i - 1) ' ' == '/')) &&
    (List.range (s.length - i + 1)).any fun k =>
      matchToks ts ((s.drop i).take k) && globTailOk s (i + k)

/-- Semantics of `T(/.*)?$` under JS substring search (trailing-`/` branch). -/
def testUnanchored (ts : List GTok) (s : Str) : Bool :=
  (List.range (s.length + 1)).any fun i =>
    (List.range (s.length - i + 1)).any fun k =>
      matchToks ts ((s.drop i).take k) && globTailOk s (i + k)

/-- A compiled ignore regex. -/
inductive GlobRegex where
  | anchored (ts : List GTok)
  | unanchored (ts : List GTok)
deriving Repr, DecidableEq

/-- Embeds `globToRegex` (lib/ignore.js).  The trailing-`/` branch drops the last
two characters of the translated string (`regex.slice(0, -2)`): the final
`/` plus the last character of the previous token's translation — `[^/]*`
becomes `[^/]`, `.*` becomes `.`, a literal loses itself, and an escaped dot
or `[^/]` produces an invalid regex (`none`, where `new RegExp` throws). -/
def globToRegex (p : Str) : Option GlobRegex :=
  if p.getLast? = some '/' then
    let ts := globTokens p.dropLast
    match ts.getLast? with
    | none => some (.unanchored [])
    | some (.lit '.') => none
    | some (.lit _) => some (.unanchored ts.dropLast)
    | some .star => some (.unanchored (ts.dropLast ++ [.qm]))
    | some .gstar => some (.unanchored (ts.dropLast ++ [.anyc]))
    | some .qm => none
    | some .anyc => none
  else
    some (.anchored (globTokens p))

/-- Embeds `regex.test(relativePath)`. -/
def regexTest (r : GlobRegex) (s : Str) : Bool :=
  match r with
  | .anchored ts => testAnchored ts s
  | .unanchored ts => testUnanchored ts s

/-- The `DEFAULT_IGNORE` list (lib/ignore.js). -/
def DEFAULT_IGNORE : List Str :=
  [".*".data, "node_modules".data, "Thumbs.db".data, "*.swp".data,
   "*.swo".data, "*~".data]

/-- Embeds `createIgnoreMatcher` (lib/ignore.js): compile default + loaded patterns
into `(regex, negated)` rules; `none` models a throwing `new RegExp`. -/
def createIgnoreMatcher (patterns : List Str) : Option (List (GlobRegex × Bool)) :=
  (DEFAULT_IGNORE ++ patterns).mapM fun p =>
    (globToRegex p).map fun r => (r, p.head? == some '!')

/-- Embeds `isIgnored` (lib/ignore.js): fold the rules in order, the last matching
rule setting `ignored` to the negation of its `negated` flag. -/
def isIgnored (rules : List (GlobRegex × Bool)) (relativePath : Str) : Bool :=
  rules.foldl
    (fun ignored rule => if regexTest rule.1 relativePath then !rule.2 else ignored)
    false

/-- Embeds `parseIgnorePatterns` (lib/ignore.js): split lines, trim, drop blanks and
`#` comments. -/
def parseIgnorePatterns (content : Str) : List Str :=
  ((splitNL content).map jsTrim).filter fun l => !l.isEmpty && l.head? != some '#'

/-- C7 refuted (code bug). With loaded patterns `*.log` then `!important.log`,
the path `important.log` is still ignored: the `!` is never stripped before
glob compilation, so the negated rule's regex requires a literal `!` in the
path and cannot re-allow it — even though the stripped glob of the last rule
does match the path, which under the claimed last-match-wins negation
semantics would make `isIgnored` false. -/
theorem ignore_negation_inert :
    (createIgnoreMatcher ["*.log".data, "!important.log".data]).map
      (fun rules => isIgnored rules "important.log".data) = some true ∧
    (globToRegex "important.log".data).map
      (fun r => regexTest r "important.log".data) = some true ∧
    (globToRegex "!important.log".data).map
      (fun r => regexTest r "important.log".data) = some false := by
  refine ⟨by decide, by decide, by decide⟩

/-! ## File types (lib/filetypes.js) -/

/-- Drop trailing `/` characters (POSIX basename ignores them). -/
def dropTrailSlash (p : Str) : Str :=
  (p.reverse.dropWhile (· = '/')).reverse

/-- Embeds `path.basename` (POSIX). -/
def pathBasename (p : Str) : Str :=
  ((splitP (· = '/') (dropTrailSlash p)).getLast?.getD [])

/-- Embeds `path.extname` (POSIX): from the last `.` of the basename, unless it is
the leading character. -/
def extnameOf (p : Str) : Str :=
  let b := pathBasename p
  match (b.reverse.takeWhile (· ≠ '.')).length with
  | k =>
    if k = b.length then []
    else
      let pos := b.length - 1 - k
      if pos = 0 then [] else b.drop pos

/-- ASCII lower-casing (`toLowerCase` on extensions). -/
def lowerStr (s : Str) : Str :=
  s.map fun c => if 0x41 ≤ c.toNat ∧ c.toNat ≤ 0x5A then Char.ofNat (c.toNat + 32) else c

/-- The `TEXT_EXTENSIONS` set (lib/filetypes.js). -/
def TEXT_EXTENSIONS : List Str :=
  [".md", ".markdown", ".mdx", ".txt", ".text", ".rst", ".adoc",
   ".ts", ".tsx", ".mts", ".cts", ".js", ".jsx", ".mjs", ".cjs",
   ".py", ".pyw", ".pyi", ".rs", ".go", ".java",
   ".c", ".h", ".cpp", ".cc", ".cxx", ".hpp", ".hh", ".hxx",
   ".cs", ".rb", ".php", ".swift", ".kt", ".kts", ".scala",
   ".r", ".R", ".lua", ".pl", ".pm", ".sh", ".bash", ".zsh",
   ".html", ".htm", ".css", ".scss", ".sass", ".less",
   ".json", ".jsonc", ".yaml", ".yml", ".xml", ".toml", ".ini", ".cfg", ".env",
   ".gitignore", ".ignore", ".editorconfig", ".sql", ".graphql", ".gql"].map
    String.data

/-- The special extensionless text basenames of `isTextFile`. -/
def SPECIAL_TEXT_NAMES : List Str :=
  ["Makefile", "Dockerfile", "Jenkinsfile", "Vagrantfile", "LICENSE",
   "README", "CHANGELOG"].map String.data

/-- Embeds `isTextFile` (lib/filetypes.js). -/
def isTextFile (filepath : Str) : Bool :=
  let ext := lowerStr (extnameOf filepath)
  let b := pathBasename filepath
  TEXT_EXTENSIONS.contains ext || SPECIAL_TEXT_NAMES.contains b ||
    (b.head? == some '.' && ext.isEmpty)

/-! ## fs_write (fs_write tool module)

The tool's effects are modelled in an explicit state-plus-exception monad
over a flat file store: `M α = FSState → Except Str (α × FSState)`.  An
`Except.error` escaping a computation models a JS exception crossing that
function's boundary (the source has no try/catch except the one inside its
`fileExists` helper).  `FSOps` carries the `node:fs/promises` operations so
that failing filesystems can be expressed; `realFS` is the ordinary
semantics over the store. -/

/-- Flat file store: association list of absolute path to content. -/
abbrev FSState := List (Str × Str)

/-- The effect monad of the fs_write model. -/
def M (α : Type) : Type := FSState → Except Str (α × FSState)

/-- Monad unit. -/
def mPure (a : α) : M α := fun s => .ok (a, s)

/-- Monad bind: an error short-circuits, like an uncaught JS exception. -/
def mBind (m : M α) (f : α → M β) : M β := fun s =>
  match m s with
  | .error e => .error e
  | .ok (a, s') => f a s'

/-- Embeds `try { m } catch (e) { h e }`. -/
def mCatch (m : M α) (h : Str → M α) : M α := fun s =>
  match m s with
  | .error e => h e s
  | .ok r => .ok r

/-- The filesystem operations used by fs_write. -/
structure FSOps where
  access : Str → M Unit
  readFileU : Str → M Str
  writeFileU : Str → Str → M Unit
  unlink : Str → M Unit
  mkdirRec : Str → M Unit

/-- Ordinary filesystem semantics over the store. -/
def realFS : FSOps where
  access := fun p s =>
    match s.lookup p with
    | some _ => .ok ((), s)
    | none => .error "ENOENT".data
  readFileU := fun p s =>
    match s.lookup p with
    | some c => .ok (c, s)
    | none => .error "ENOENT".data
  writeFileU := fun p c s =>
    .ok ((), (p, c) :: s.filter (fun e => !(e.1 == p)))
  unlink := fun p s =>
    match s.lookup p with
    | some _ => .ok ((), s.filter (fun e => !(e.1 == p)))
    | none => .error "ENOENT".data
  mkdirRec := fun _ s => .ok ((), s)

/-- Like `realFS`, but `fs.unlink` fails (e.g. EACCES). -/
def failUnlinkFS : FSOps :=
  { realFS with unlink := fun _ _ => .error "EACCES".data }

/-- Embeds `fileExists` (fs_write): `fs.access` under try/catch. -/
def fileExists (fs : FSOps) (absPath : Str) : M Bool :=
  mCatch (mBind (fs.access absPath) (fun _ => mPure true)) (fun _ => mPure false)

/-- Truthiness of an optional JS string (absent or empty is falsy). -/
def jsTruthyS : Option Str → Bool
  | some s => !s.isEmpty
  | none => false

/-- The update-relevant fields of the fs_write input. -/
structure UpdateInput where
  action : Option Str := none
  content : Option Str := none
  lines : Option Str := none
  pattern : Option Str := none
  replaceAll : Bool := false
  checksum : Option Str := none
  dryRun : Bool := false
deriving Repr, DecidableEq

/-- The structured result of a write operation (the record the source
serialises with `JSON.stringify`; the human `hint` field is not modelled). -/
structure WriteResult where
  success : Bool
  path : Str
  operation : Str
  applied : Bool
  errCode : Option Str := none
  errMessage : Str := []
  resultAction : Option Str := none
  linesAffected : Option Int := none
  newChecksum : Option Str := none
  diff : Option Str := none
deriving Repr, DecidableEq

/-- The action dispatch of `updateFile` (the `switch (input.action)`),
followed by diff, dry-run gate and persist. -/
def applyUpdateAction (fs : FSOps) (absPath relativePath : Str)
    (input : UpdateInput) (currentContent : Str)
    (targetStart targetEnd : Int) (patternMatch : Option PMatch) :
    M WriteResult :=
  let content := input.content.getD []
  let step : Option (Str × Str × Int) :=
    if input.action == some "replace".data then
      match patternMatch with
      | some m =>
        some (spliceStr currentContent m.index m.text.length content,
          "replaced".data,
          (max (splitNL m.text).length (splitNL content).length : Nat))
      | none =>
        some (replaceLines currentContent targetStart targetEnd content,
          "replaced".data, targetEnd - targetStart + 1)
    else if input.action == some "insert_before".data then
      some (insertBeforeLine currentContent targetStart content,
        "inserted_before".data, ((splitNL content).length : Nat))
    else if input.action == some "insert_after".data then
      some (insertAfterLine currentContent targetEnd content,
        "inserted_after".data, ((splitNL content).length : Nat))
    else if input.action == some "delete_lines".data then
      some (deleteLines currentContent targetStart targetEnd,
        "deleted_lines".data, targetEnd - targetStart + 1)
    else none
  match step with
  | none =>
    mPure { success := false, path := relativePath, operation := "update".data,
            applied := false, errCode := some "INVALID_ACTION".data,
            errMessage := "Unknown action".data }
  | some (newContent, desc, la) =>
    let diff := generateDiff currentContent newContent relativePath
    if input.dryRun then
      mPure { success := true, path := relativePath, operation := "update".data,
              applied := false, resultAction := some ("would_".data ++ desc),
              linesAffected := some la, diff := some diff }
    else
      mBind (fs.writeFileU absPath newContent) fun _ =>
      mPure { success := true, path := relativePath, operation := "update".data,
              applied := true, resultAction := some desc, linesAffected := some la,
              newChecksum := some (generateChecksum newContent), diff := some diff }

/-- Embeds `updateFile` (fs_write).  `fs.readFile` and `fs.writeFile` are plain
binds: their errors propagate out (no try/catch in the source). -/
def updateFileE (fs : FSOps) (absPath relativePath : Str)
    (input : UpdateInput) : M WriteResult :=
  mBind (fileExists fs absPath) fun ex =>
  if !ex then
    mPure { success := false, path := relativePath, operation := "update".data,
            applied := false, errCode := some "NOT_FOUND".data,
            errMessage := "File does not exist".data }
  else if !(isTextFile absPath) then
    mPure { success := false, path := relativePath, operation := "update".data,
            applied := false, errCode := some "NOT_TEXT".data,
            errMessage := "Cannot modify binary files".data }
  else if !(jsTruthyS input.action) then
    mPure { success := false, path := relativePath, operation := "update".data,
            applied := false, errCode := some "MISSING_ACTION".data,
            errMessage := "action is required for update".data }
  else
    mBind (fs.readFileU absPath) fun currentContent =>
    let currentChecksum := generateChecksum currentContent
    if jsTruthyS input.checksum && !(input.checksum.getD [] == currentChecksum) then
      mPure { success := false, path := relativePath, operation := "update".data,
              applied := false, errCode := some "CHECKSUM_MISMATCH".data,
              errMessage := "File changed. Current checksum: ".data ++ currentChecksum }
    else if jsTruthyS input.lines then
      match parseLineRange (input.lines.getD []) with
      | none =>
        mPure { success := false, path := relativePath, operation := "update".data,
                applied := false, errCode := some "INVALID_RANGE".data,
                errMessage := "Invalid line range".data }
      | some range =>
        let lines := splitNL currentContent
        if range.start > (lines.length : Int) then
          mPure { success := false, path := relativePath, operation := "update".data,
                  applied := false, errCode := some "OUT_OF_RANGE".data,
                  errMessage := "Line beyond file end".data }
        else
          applyUpdateAction fs absPath relativePath input currentContent
            range.start (min range.stop (lines.length : Int)) none
    else if jsTruthyS input.pattern then
      if input.replaceAll && (input.action == some "replace".data) then
        let result := replaceAllMatchesLit currentContent (input.pattern.getD [])
          (input.content.getD [])
        if result.count = 0 then
          mPure { success := false, path := relativePath, operation := "update".data,
                  applied := false, errCode := some "PATTERN_NOT_FOUND".data,
                  errMessage := "Pattern not found".data }
        else
          let diff := generateDiff currentContent result.newContent relativePath
          if input.dryRun then
            mPure { success := true, path := relativePath, operation := "update".data,
                    applied := false, resultAction := some "would_replace_all".data,
                    linesAffected := some (result.affectedLines.length : Nat),
                    diff := some diff }
          else
            mBind (fs.writeFileU absPath result.newContent) fun _ =>
            mPure { success := true, path := relativePath, operation := "update".data,
                    applied := true, resultAction := some "replaced_all".data,
                    linesAffected := some (result.affectedLines.length : Nat),
                    newChecksum := some (generateChecksum result.newContent),
                    diff := some diff }
      else
        match findUniqueMatchLit currentContent (input.pattern.getD []) with
        | .notFound =>
          mPure { success := false, path := relativePath, operation := "update".data,
                  applied := false, errCode := some "PATTERN_NOT_FOUND".data,
                  errMessage := "Pattern not found".data }
        | .multiple _ _ =>
          mPure { success := false, path := relativePath, operation := "update".data,
                  applied := false, errCode := some "MULTIPLE_MATCHES".data,
                  errMessage := "Pattern matched multiple times".data }
        | .unique m =>
          applyUpdateAction fs absPath relativePath input currentContent
            (m.line : Nat) ((m.line : Nat) + (splitNL m.text).length - 1) (some m)
    else
      mPure { success := false, path := relativePath, operation := "update".data,
              applied := false, errCode := some "NO_TARGET".data,
              errMessage := "Either lines or pattern must be specified".data }

/-- Embeds `path.dirname` (POSIX), used only by the (no-op) recursive mkdir. -/
def pathDirname (p : Str) : Str :=
  let segs := splitP (· = '/') (dropTrailSlash p)
  match segs.dropLast with
  | [] => ".".data
  | [[]] => "/".data
  | ss => List.intercalate "/".data ss

/-- Embeds `createFile` (fs_write): `fs.mkdir`/`fs.writeFile` errors propagate. -/
def createFileE (fs : FSOps) (absPath relativePath content : Str)
    (dryRun : Bool) : M WriteResult :=
  mBind (fileExists fs absPath) fun ex =>
  if ex then
    mPure { success := false, path := relativePath, operation := "create".data,
            applied := false, errCode := some "ALREADY_EXISTS".data,
            errMessage := "File already exists".data }
  else if dryRun then
    mPure { success := true, path := relativePath, operation := "create".data,
            applied := false, resultAction := some "would_create".data,
            linesAffected := some ((splitNL content).length : Nat),
            diff := some (generateDiff [] content relativePath) }
  else
    mBind (fs.mkdirRec (pathDirname absPath)) fun _ =>
    mBind (fs.writeFileU absPath content) fun _ =>
    mPure { success := true, path := relativePath, operation := "create".data,
            applied := true, resultAction := some "created".data,
            linesAffected := some ((splitNL content).length : Nat),
            newChecksum := some (generateChecksum content) }

/-- Embeds `deleteFile` (fs_write): the `fs.unlink` error propagates. -/
def deleteFileE (fs : FSOps) (absPath relativePath : Str) (dryRun : Bool) :
    M WriteResult :=
  mBind (fileExists fs absPath) fun ex =>
  if !ex then
    mPure { success := false, path := relativePath, operation := "delete".data,
            applied := false, errCode := some "NOT_FOUND".data,
            errMessage := "File does not exist".data }
  else if dryRun then
    mPure { success := true, path := relativePath, operation := "delete".data,
            applied := false, resultAction := some "would_delete".data }
  else
    mBind (fs.unlink absPath) fun _ =>
    mPure { success := true, path := relativePath, operation := "delete".data,
            applied := true, resultAction := some "deleted".data }

/-- The full fs_write input. -/
structure WriteArgs where
  path : Str
  operation : Str
  action : Option Str := none
  content : Option Str := none
  lines : Option Str := none
  pattern : Option Str := none
  replaceAll : Bool := false
  checksum : Option Str := none
  dryRun : Bool := false
deriving Repr, DecidableEq

/-- Embeds `execute` (fs_write): resolve, dispatch on operation.  There is no
try/catch here, so any error of the operation functions escapes. -/
def executeWriteE (fs : FSOps) (root : Str) (args : WriteArgs) : M WriteResult :=
  match resolvePath root args.path with
  | .err e =>
    mPure { success := false, path := args.path, operation := args.operation,
            applied := false, errCode := some "INVALID_PATH".data, errMessage := e }
  | .ok r =>
    if args.operation == "create".data then
      if !(jsTruthyS args.content) then
        mPure { success := false, path := r.virtualPath, operation := "create".data,
                applied := false, errCode := some "MISSING_CONTENT".data,
                errMessage := "content is required for create".data }
      else
        createFileE fs r.absolutePath r.virtualPath (args.content.getD []) args.dryRun
    else if args.operation == "delete".data then
      deleteFileE fs r.absolutePath r.virtualPath args.dryRun
    else if args.operation == "update".data then
      updateFileE fs r.absolutePath r.virtualPath
        ⟨args.action, args.content, args.lines, args.pattern, args.replaceAll,
          args.checksum, args.dryRun⟩
    else
      mPure { success := false, path := r.virtualPath, operation := args.operation,
              applied := false, errCode := some "INVALID_OPERATION".data,
              errMessage := "Unknown operation".data }

/-- The result record of a run, when no exception escaped. -/
def runResult (r : Except Str (WriteResult × FSState)) : Option WriteResult :=
  match r with
  | .ok (res, _) => some res
  | .error _ => none

/-- The final file store of a run, when no exception escaped. -/
def runState (r : Except Str (WriteResult × FSState)) : Option FSState :=
  match r with
  | .ok (_, st) => some st
  | .error _ => none

/-- C6 refuted (code bug): when `fs.unlink` fails (e.g. EACCES on the
directory), the exception escapes `execute` of fs_write — there is no
try/catch around the unlink — instead of being converted into the
`{success:false, error:{...}}` envelope. -/
theorem execute_throws_on_unlink_error :
    executeWriteE failUnlinkFS "/ws".data
      { path := "notes.txt".data, operation := "delete".data }
      [("/ws/notes.txt".data, "hi".data)] = .error "EACCES".data := by
  rfl

/-- Run `updateFile` with the ordinary filesystem on a store holding one
text file `/ws/a.md` with the given content. -/
def updTest (content : Str) (input : UpdateInput) :
    Except Str (WriteResult × FSState) :=
  updateFileE realFS "/ws/a.md".data "a.md".data input [("/ws/a.md".data, content)]

theorem isTextFile_amd :
    isTextFile ['/', 'w', 's', '/', 'a', '.', 'm', 'd'] = true := by decide

/-- C2 (amended). An update on an existing text file that supplies a
non-empty checksum and an action: if the checksum differs from the current
content's checksum, the operation fails with CHECKSUM_MISMATCH, no
transformation is attempted, and the file store is left unchanged. -/
theorem checksum_mismatch_rejects (content : Str) (input : UpdateInput)
    (c : Str) (hchk : input.checksum = some c) (hne : c ≠ [])
    (hmm : c ≠ generateChecksum content)
    (hact : jsTruthyS input.action = true) :
    updTest content input =
      .ok ({ success := false, path := "a.md".data, operation := "update".data,
             applied := false, errCode := some "CHECKSUM_MISMATCH".data,
             errMessage := "File changed. Current checksum: ".data ++
               generateChecksum content },
           [("/ws/a.md".data, content)]) := by
  unfold updTest updateFileE
  simp only [mBind, mCatch, mPure, fileExists, realFS, List.lookup,
    beq_self_eq_true, isTextFile_amd, hact, Bool.not_true,
    Bool.false_eq_true, if_false]
  have hchk' : jsTruthyS input.checksum = true := by
    rw [hchk]
    simp [jsTruthyS, List.isEmpty_eq_false.mpr hne]
  have hbeq : (input.checksum.getD [] == generateChecksum content) = false := by
    rw [hchk]
    exact beq_eq_false_iff_ne.mpr hmm
  simp only [hchk', hbeq, Bool.not_false, Bool.and_true, Bool.true_and,
    Bool.and_self, if_true, mPure]

/-- A stale (but non-empty) checksum for the C2 witness. -/
def staleInput : UpdateInput :=
  { action := some "replace".data, content := some "Y".data,
    lines := some "1".data, checksum := some "zzz".data }

/-- Witness for C2 (amended): a syntactically valid but stale checksum is
rejected and the store is untouched. -/
theorem checksum_mismatch_rejects_witness :
    updTest "x".data staleInput =
      .ok ({ success := false, path := "a.md".data, operation := "update".data,
             applied := false, errCode := some "CHECKSUM_MISMATCH".data,
             errMessage := "File changed. Current checksum: ".data ++
               generateChecksum "x".data },
           [("/ws/a.md".data, "x".data)]) :=
  checksum_mismatch_rejects "x".data staleInput "zzz".data rfl
    (by decide) (by decide) (by decide)

/-- The C2 counterexample input: a supplied checksum that is the empty
string. -/
def emptyChkInput : UpdateInput :=
  { action := some "replace".data, content := some "Y".data,
    lines := some "1".data, checksum := some [] }

/-- Counterexample to C2 as stated: an update request that supplies the
checksum `""` — which differs from the file's current checksum — is NOT
rejected: `input.checksum &&` treats the empty string as falsy, the guard is
skipped, and the edit is applied. -/
theorem checksum_empty_bypasses_guard :
    ((([] : Str) == generateChecksum "x".data) = false) ∧
    (runResult (updTest "x".data emptyChkInput)).map (·.errCode) = some none ∧
    (runResult (updTest "x".data emptyChkInput)).map (·.applied) = some true ∧
    runState (updTest "x".data emptyChkInput) =
      some [("/ws/a.md".data, "Y".data)] := by
  refine ⟨by decide, by rfl, by rfl, by rfl⟩

/-- The C10 input: `lines="0"`, `action=delete_lines`. -/
def deleteZeroInput : UpdateInput :=
  { action := some "delete_lines".data, lines := some "0".data }

/-- C10. `parseLineRange` accepts `"0"` as `{start := 0, stop := 0}`; the
update validation (`start > lines.length`) does not reject it; and
`delete_lines` with that target turns an N-line file into lines `1..N-1`
followed by all N original lines (JS `slice(0, -1)` keeps all but the last
line and `slice(0)` keeps everything), instead of deleting anything. -/
theorem zero_range_delete_duplicates (content : Str) :
    parseLineRange "0".data = some ⟨0, 0⟩ ∧
    (runResult (updTest content deleteZeroInput)).map (·.errCode) = some none ∧
    (runResult (updTest content deleteZeroInput)).map (·.applied) = some true ∧
    runState (updTest content deleteZeroInput) =
      some [("/ws/a.md".data,
        joinNL ((splitNL content).take ((splitNL content).length - 1) ++
          splitNL content))] := by
  have h1 : jsTruthyS deleteZeroInput.action = true := by decide
  have h2 : jsTruthyS deleteZeroInput.checksum = false := by decide
  have h3 : jsTruthyS deleteZeroInput.lines = true := by decide
  have h4 : parseLineRange (deleteZeroInput.lines.getD []) = some ⟨0, 0⟩ := by
    decide
  have h7 : (deleteZeroInput.action == some "replace".data) = false := by decide
  have h8 : (deleteZeroInput.action == some "insert_before".data) = false := by
    decide
  have h9 : (deleteZeroInput.action == some "insert_after".data) = false := by
    decide
  have h10 : (deleteZeroInput.action == some "delete_lines".data) = true := by
    decide
  have h11 : deleteZeroInput.dryRun = false := by decide
  refine ⟨by rfl, ?_, ?_, ?_⟩ <;>
  · unfold updTest updateFileE applyUpdateAction
    simp only [mBind, mCatch, mPure, fileExists, realFS, List.lookup,
      beq_self_eq_true, isTextFile_amd, h1, h2, h3, h4, h7, h8, h9, h10, h11,
      Bool.not_true, Bool.not_false, Bool.false_eq_true, Bool.false_and,
      Bool.and_self, if_false, if_true, eq_self_iff_true]
    have h5 : ¬ ((0 : Int) > ((splitNL content).length : Int)) := by omega
    rw [if_neg h5]
    have h6 : min (0 : Int) ((splitNL content).length : Int) = 0 := by omega
    rw [h6]
    have h12 : deleteLines content 0 0 =
        joinNL ((splitNL content).take ((splitNL content).length - 1) ++
          splitNL content) := by
      unfold deleteLines jsSlice jsSliceIdx
      have ha : ((0 : Int) - 1) < 0 := by omega
      have hb : (((splitNL content).length : Int) + ((0 : Int) - 1)).toNat =
          (splitNL content).length - 1 := by omega
      have hc : ¬ ((0 : Int) < 0) := by omega
      simp only [if_pos ha, if_neg hc, hb, Int.toNat_zero, Nat.zero_min,
        List.drop_zero, List.take_length, Nat.min_zero]
      try simp
    simp only [h12, mBind, mPure, realFS, runResult, runState,
      Option.map_some]
    rfl

/-! ## fs_read: readFile

`readFile` (fs_read tool module) on the successful-read path: the content
parameter stands for the result of `fs.readFile`; the ENOENT/IO_ERROR
catch branches of the source are not modelled (C8 concerns the success
path). -/

/-- The `content` payload of a successful file read. -/
structure ReadContent where
  text : Str
  checksum : Str
  totalLines : Nat
  range : Option (Int × Int)
  truncated : Bool
deriving Repr, DecidableEq

/-- The result record of `readFile`. -/
structure ReadFileResult where
  success : Bool
  path : Str
  content : Option ReadContent := none
  errCode : Option Str := none
deriving Repr, DecidableEq

/-- Embeds `readFile` (fs_read): checksum, line count, optional explicit range, and
the 100-line preview cap when no range is requested. -/
def readFileModel (absPath relativePath content : Str) (linesOpt : Option Str) :
    ReadFileResult :=
  if !(isTextFile absPath) then
    { success := false, path := relativePath, errCode := some "NOT_TEXT".data }
  else
    let checksum := generateChecksum content
    let totalLines := (splitNL content).length
    if jsTruthyS linesOpt then
      match parseLineRange (linesOpt.getD []) with
      | none =>
        { success := false, path := relativePath,
          errCode := some "INVALID_RANGE".data }
      | some r =>
        let ex := extractLines content r.start r.stop
        { success := true, path := relativePath,
          content := some ⟨addLineNumbers ex.text ex.actualStart, checksum,
            totalLines, some (ex.actualStart, ex.actualEnd), false⟩ }
    else
      if totalLines > 100 then
        let ex := extractLines content 1 100
        { success := true, path := relativePath,
          content := some ⟨addLineNumbers ex.text 1, checksum, totalLines,
            some (1, 100), true⟩ }
      else
        { success := true, path := relativePath,
          content := some ⟨addLineNumbers content 1, checksum, totalLines,
            none, false⟩ }

/-- C8. For every successful read of a text file with no explicit line
range: if the content splits into more than 100 lines, the result is
truncated with range 1-100 and the text is the numbered extraction of lines
1 through 100 only; with 100 or fewer lines, the full (numbered) content is
returned, `truncated` is false and no range is reported. -/
theorem readFile_preview_truncation (absPath relativePath content : Str)
    (htext : isTextFile absPath = true) :
    ((splitNL content).length > 100 →
      readFileModel absPath relativePath content none =
        { success := true, path := relativePath,
          content := some ⟨addLineNumbers (extractLines content 1 100).text 1,
            generateChecksum content, (splitNL content).length,
            some (1, 100), true⟩ }) ∧
    ((splitNL content).length ≤ 100 →
      readFileModel absPath relativePath content none =
        { success := true, path := relativePath,
          content := some ⟨addLineNumbers content 1, generateChecksum content,
            (splitNL content).length, none, false⟩ }) := by
  constructor
  · intro hbig
    unfold readFileModel
    simp [htext, jsTruthyS, hbig]
  · intro hsmall
    unfold readFileModel
    have : ¬ ((splitNL content).length > 100) := by omega
    simp [htext, jsTruthyS, this]

/-- A 101-line content for the C8 witness. -/
def longContent : Str := joinNL (List.replicate 101 ['x'])

/-- Witness for C8: a 101-line file is truncated to lines 1-100; a 2-line
file is returned in full. -/
theorem readFile_preview_truncation_witness :
    readFileModel "/ws/a.md".data "a.md".data longContent none =
      { success := true, path := "a.md".data,
        content := some ⟨addLineNumbers (extractLines longContent 1 100).text 1,
          generateChecksum longContent, (splitNL longContent).length,
          some (1, 100), true⟩ } ∧
    readFileModel "/ws/a.md".data "a.md".data "a\nb".data none =
      { success := true, path := "a.md".data,
        content := some ⟨addLineNumbers "a\nb".data 1,
          generateChecksum "a\nb".data, (splitNL "a\nb".data).length,
          none, false⟩ } := by
  constructor
  · exact (readFile_preview_truncation "/ws/a.md".data "a.md".data longContent
      (by decide)).1 (by decide)
  · exact (readFile_preview_truncation "/ws/a.md".data "a.md".data "a\nb".data
      (by decide)).2 (by decide)

/-! ## Fuzzy file search (lib/file-search.js) and auto-resolve

The filesystem under the workspace root is modelled as a tree of named
nodes in `readdir` order.  `searchFiles` walks it (skipping dot-entries,
the always-excluded directories, and ignore-matched paths, to `maxDepth`),
fuzzy-scores the entries against the query, stable-sorts by descending
score and keeps the first `maxResults`.  `stat` failures are not modelled
(the source skips such entries); `options.exclude` is empty on the
auto-resolve path and is not modelled.  The walk recursion is structured on
a fuel that dominates the tree size, so it is total and kernel-reducible. -/

/-- A filesystem node: file content or directory children in readdir order. -/
inductive FsNode where
  | file (content : Str)
  | dir (children : List (Str × FsNode))

/-- Embeds `ALWAYS_EXCLUDE` (lib/file-search.js). -/
def ALWAYS_EXCLUDE : List Str :=
  [".git", "node_modules", ".svelte-kit", ".next", ".nuxt",
   "__pycache__", "target", "dist", ".agent-data"].map String.data

/-- An entry collected by the walk. -/
structure FEntry where
  relativePath : Str
  fileName : Str
  isDirectory : Bool
  extension : Str
deriving Repr, DecidableEq

/-- A scored entry. -/
structure ScoredEntry where
  relativePath : Str
  fileName : Str
  isDirectory : Bool
  extension : Str
  score : Int
deriving Repr, DecidableEq

/-- The content of a named child file, if present. -/
def childFileContent (children : List (Str × FsNode)) (name : Str) :
    Option Str :=
  match children.lookup name with
  | some (.file c) => some c
  | _ => none

/-- Embeds `loadIgnorePatterns` (lib/ignore.js): `.gitignore` then `.ignore` from
the root directory; absent files contribute nothing. -/
def loadIgnorePatternsModel (children : List (Str × FsNode)) : List Str :=
  (match childFileContent children ".gitignore".data with
   | some c => parseIgnorePatterns c
   | none => []) ++
  (match childFileContent children ".ignore".data with
   | some c => parseIgnorePatterns c
   | none => [])

/-- The search options used on the paths under study. -/
structure SearchOpts where
  maxResults : Nat
  includeDirectories : Bool
  maxDepth : Nat
deriving Repr, DecidableEq

/-- The recursive walk of `searchFiles`: skips dot-entries, always-excluded
names and ignored paths; descends into directories while the depth stays
within `maxDepth`. -/
def walkList (rules : List (GlobRegex × Bool)) (opts : SearchOpts) :
    Nat → Nat → Str → List (Str × FsNode) → List FEntry
  | 0, _, _, _ => []
  | _ + 1, _, _, [] => []
  | fuel + 1, depth, relDir, (name, child) :: rest =>
    let this :=
      if name.head? == some '.' then []
      else if ALWAYS_EXCLUDE.contains name then []
      else
        let itemRelPath := if relDir.isEmpty then name else relDir ++ '/' :: name
        if isIgnored rules itemRelPath then []
        else
          match child with
          | .dir cs =>
            (if opts.includeDirectories then
              [⟨itemRelPath, name, true, []⟩] else []) ++
            (if depth + 1 > opts.maxDepth then []
             else walkList rules opts fuel (depth + 1) itemRelPath cs)
          | .file _ =>
            [⟨itemRelPath, name, false, lowerStr ((extnameOf name).drop 1)⟩]
    this ++ walkList rules opts fuel depth relDir rest

/-- Subsequence scan of `fuzzyMatch`: indices in `t` (from offset `i`) where
the query characters match in order; `none` when the query is not
exhausted. -/
def fz (t : Str) (i : Nat) (q : Str) (acc : List Nat) : Option (List Nat) :=
  match q with
  | [] => some acc.reverse
  | qc :: qrest =>
    match t with
    | [] => none
    | tc :: trest =>
      if tc == qc then fz trest (i + 1) qrest (i :: acc)
      else fz trest (i + 1) (qc :: qrest) acc

/-- Embeds `fuzzyMatch` (lib/file-search.js): `none` if the query is not an ordered
case-insensitive subsequence of the target; otherwise the score (+10 per
consecutive matched pair, +5 per path/word-boundary match, -2 per path
segment of the target). -/
def fuzzyScore (queryLower target : Str) : Option Int :=
  let tl := lowerStr target
  (fz tl 0 (lowerStr queryLower) []).map fun indices =>
    let consec := ((indices.zip (indices.drop 1)).filter
      (fun ab => ab.2 = ab.1 + 1)).length
    let bound := (indices.filter (fun idx =>
      decide (idx = 0) || (tl.getD (idx - 1) ' ' == '/') ||
      (tl.getD (idx - 1) ' ' == '_') || (tl.getD (idx - 1) ' ' == '-'))).length
    (10 * consec + 5 * bound : Int) - ((splitP (· = '/') target).length * 2 : Nat)

/-- Stable insertion of a scored entry into a descending-sorted list. -/
def insertScored (x : ScoredEntry) : List ScoredEntry → List ScoredEntry
  | [] => [x]
  | y :: ys => if x.score ≥ y.score then x :: y :: ys else y :: insertScored x ys

/-- Stable descending sort (JS `sort((a, b) => b.score - a.score)`). -/
def sortScoredDesc : List ScoredEntry → List ScoredEntry
  | [] => []
  | x :: xs => insertScored x (sortScoredDesc xs)

/-- Embeds `searchFiles` (lib/file-search.js) with `respectIgnore` and empty
`exclude`; `none` models the exception thrown when an ignore pattern
compiles to an invalid regex. -/
def searchFilesModel (fuel : Nat) (rootChildren : List (Str × FsNode))
    (query : Str) (opts : SearchOpts) : Option (List ScoredEntry) :=
  (createIgnoreMatcher (loadIgnorePatternsModel rootChildren)).map fun rules =>
    let entries := walkList rules opts fuel 0 [] rootChildren
    let queryLower := jsTrim (lowerStr query)
    let scored := entries.foldl
      (fun acc e =>
        if queryLower.isEmpty then
          acc ++ [⟨e.relativePath, e.fileName, e.isDirectory, e.extension,
            (100 : Int) - ((splitP (· = '/') e.relativePath).length * 10 : Nat)⟩]
        else
          match fuzzyScore queryLower e.fileName, fuzzyScore queryLower e.relativePath with
          | none, none => acc
          | nm, pm =>
            acc ++ [⟨e.relativePath, e.fileName, e.isDirectory, e.extension,
              (nm.getD (-1000)) * 2 + pm.getD 0⟩]) []
    (sortScoredDesc scored).take opts.maxResults

/-- The result record of `tryAutoResolve`. -/
structure AutoResolveResult where
  resolved : Bool
  resolvedPath : Option Str
  candidates : List Str
  ambiguous : Bool
deriving Repr, DecidableEq

/-- The exact case-insensitive filename matches among the top fuzzy
results. -/
def exactNameMatches (fuel : Nat) (rootChildren : List (Str × FsNode))
    (relativePath : Str) : Option (List ScoredEntry) :=
  (searchFilesModel fuel rootChildren (pathBasename relativePath)
    ⟨10, false, 10⟩).map fun results =>
    results.filter fun e =>
      !e.isDirectory && (lowerStr e.fileName == lowerStr (pathBasename relativePath))

/-- Embeds `tryAutoResolve` (lib/file-search.js): search for the basename, keep
exact case-insensitive name matches, and resolve on exactly one. -/
def tryAutoResolveModel (fuel : Nat) (rootChildren : List (Str × FsNode))
    (relativePath : Str) : Option AutoResolveResult :=
  let fileName := pathBasename relativePath
  if fileName.isEmpty then some ⟨false, none, [], false⟩
  else
    (exactNameMatches fuel rootChildren relativePath).map fun ms =>
      match ms with
      | [] => ⟨false, none, [], false⟩
      | [m] => ⟨true, some m.relativePath, [m.relativePath], false⟩
      | _ => ⟨false, none, ms.map (·.relativePath), true⟩

/-- The outcome of fs_read's missing-path branch. -/
inductive ReadOutcome where
  | redirected (resolvedPath : Str)
  | ambiguous (candidates : List Str)
  | notFound
  | thrown
deriving Repr, DecidableEq

/-- fs_read `execute`, missing-path branch: auto-resolve, then redirect /
AMBIGUOUS / NOT_FOUND (the subsequent `readFile` call of the redirect is
not modelled; `thrown` models an ignore-regex construction exception). -/
def readMissingDispatch (fuel : Nat) (rootChildren : List (Str × FsNode))
    (virtualPath : Str) : ReadOutcome :=
  match tryAutoResolveModel fuel rootChildren virtualPath with
  | none => .thrown
  | some ar =>
    if ar.resolved && ar.resolvedPath.isSome then
      .redirected (ar.resolvedPath.getD [])
    else if ar.ambiguous then .ambiguous ar.candidates
    else .notFound

/-- Modelled from the spec: every file anywhere under the root, with its
relative path and name — the claim's "exactly one file anywhere under the
root has the same case-insensitive filename" is counted over this full
enumeration, without the walk's pruning. -/
def specAllFiles : Nat → List (Str × FsNode) → Str → List (Str × Str)
  | 0, _, _ => []
  | _ + 1, [], _ => []
  | fuel + 1, (name, child) :: rest, relDir =>
    (match child with
     | .file _ => [(if relDir.isEmpty then name else relDir ++ '/' :: name, name)]
     | .dir cs => specAllFiles fuel cs
         (if relDir.isEmpty then name else relDir ++ '/' :: name)) ++
    specAllFiles fuel rest relDir

/-- Modelled from the spec: number of files under the root whose name
matches case-insensitively. -/
def specCountFilesNamed (fuel : Nat) (rootChildren : List (Str × FsNode))
    (name : Str) : Nat :=
  ((specAllFiles fuel rootChildren []).filter
    (fun e => lowerStr e.2 == lowerStr name)).length

/-- A root whose only `notes.md` lives inside a hidden directory. -/
def hiddenTree : List (Str × FsNode) :=
  [(".hidden".data, .dir [("notes.md".data, .file "hello".data)])]

/-- Counterexample to C9 as stated: exactly one file named `notes.md`
exists under the root, the direct path is missing, yet the read is
NOT_FOUND rather than a redirect — the walk skips the dot-directory
containing it. -/
theorem autoResolve_prunes_counterexample :
    specCountFilesNamed 100 hiddenTree "notes.md".data = 1 ∧
    (hiddenTree.lookup "notes.md".data).isNone = true ∧
    readMissingDispatch 100 hiddenTree "notes.md".data = .notFound := by
  refine ⟨by decide, by rfl, by decide⟩

/-- C9 (amended). For a read of a missing path, the outcome is decided by
the exact case-insensitive filename matches among the top-10 fuzzy results
of the pruned, depth-limited walk: none of them means NOT_FOUND, exactly
one means a transparent redirect to its relative path, and two or more
mean AMBIGUOUS with exactly those candidates listed. -/
theorem autoResolve_dispatch (fuel : Nat) (rootChildren : List (Str × FsNode))
    (vp : Str) (ms : List ScoredEntry)
    (hname : (pathBasename vp).isEmpty = false)
    (hm : exactNameMatches fuel rootChildren vp = some ms) :
    (ms = [] → readMissingDispatch fuel rootChildren vp = .notFound) ∧
    (∀ m, ms = [m] →
      readMissingDispatch fuel rootChildren vp = .redirected m.relativePath) ∧
    (∀ a b l, ms = a :: b :: l →
      readMissingDispatch fuel rootChildren vp =
        .ambiguous ((a :: b :: l).map (·.relativePath))) := by
  refine ⟨?_, ?_, ?_⟩
  · rintro rfl
    unfold readMissingDispatch tryAutoResolveModel
    simp [hname, hm]
  · rintro m rfl
    unfold readMissingDispatch tryAutoResolveModel
    simp [hname, hm]
  · rintro a b l rfl
    unfold readMissingDispatch tryAutoResolveModel
    simp [hname, hm]

/-- Witness for C9 (amended), on the hidden-directory tree where the match
list is empty. -/
theorem autoResolve_dispatch_witness :
    readMissingDispatch 100 hiddenTree "notes.md".data = .notFound :=
  (autoResolve_dispatch 100 hiddenTree "notes.md".data [] (by decide)
    (by decide)).1 rfl

end FsAgent
